import Mathlib

/-!
Verification of the LeaDevelop/file-sorter utility (`sort_files.py`).

We give a shallow embedding of the program: timestamps are integers
(seconds since the Unix epoch), the filesystem is an explicit state of
regular files (with modification times) and directories, and the
per-file worker `move_file` plus the dispatcher `sort_files` are
translated as pure state-passing functions.  Fallible OS calls are
modelled by explicit error injection (`Faults`), and Python's
`try/except` by a body returning `Except` plus a handler.
-/

set_option maxHeartbeats 1000000

namespace FileSorter

/-! ## Calendar arithmetic

`datetime.fromtimestamp` turns seconds since the epoch into a calendar
date; we embed that with the standard civil-from-days conversion, and
its inverse for constructing concrete test dates.
-/

def SECONDS_PER_DAY : Int := 86400

/-- `CURRENT_RELEVANT_TIME_FRAME = 90` from `sort_files.py`. -/
def CURRENT_RELEVANT_TIME_FRAME : Int := 90

/-- Days-since-epoch to (year, month, day), the usual civil calendar
conversion (all intermediate quotients are taken on non-negative
values, so truncated division agrees with floor division). -/
def civilFromDays (z : Int) : Int × Int × Int :=
  let z' := z + 719468
  let era : Int := (if 0 ≤ z' then z' else z' - 146096) / 146097
  let doe : Int := z' - era * 146097
  let yoe : Int := (doe - doe / 1460 + doe / 36524 - doe / 146096) / 365
  let y : Int := yoe + era * 400
  let doy : Int := doe - (365 * yoe + yoe / 4 - yoe / 100)
  let mp : Int := (5 * doy + 2) / 153
  let d : Int := doy - (153 * mp + 2) / 5 + 1
  let m : Int := if mp < 10 then mp + 3 else mp - 9
  (if m ≤ 2 then y + 1 else y, m, d)

/-- (year, month, day) to days since the epoch; inverse of
`civilFromDays`, used to build concrete timestamps. -/
def daysFromCivil (y m d : Int) : Int :=
  let y' := if m ≤ 2 then y - 1 else y
  let era : Int := (if 0 ≤ y' then y' else y' - 399) / 400
  let yoe : Int := y' - era * 400
  let mp : Int := if 2 < m then m - 3 else m + 9
  let doy : Int := (153 * mp + 2) / 5 + d - 1
  let doe : Int := yoe * 365 + yoe / 4 - yoe / 100 + doy
  era * 146097 + doe - 719468

/-- Seconds-since-epoch timestamp of midnight on a given civil date. -/
def tsOfCivil (y m d : Int) : Int := SECONDS_PER_DAY * daysFromCivil y m d

/-- `datetime.fromtimestamp(ts).month`. -/
def dtMonth (ts : Int) : Int := (civilFromDays (Int.fdiv ts SECONDS_PER_DAY)).2.1

/-- `datetime.fromtimestamp(ts).year`. -/
def dtYear (ts : Int) : Int := (civilFromDays (Int.fdiv ts SECONDS_PER_DAY)).1

/-- `should_move_file` from `sort_files.py` (lines 47-53): the file is
moved iff its modification date is strictly before
`now - timedelta(days=90)`.  The program reads `datetime.now()`
internally; the embedding passes `now` explicitly. -/
def should_move_file (modification_date now : Int) : Bool :=
  modification_date < now - CURRENT_RELEVANT_TIME_FRAME * SECONDS_PER_DAY

/-- `quarter = (modified_date.month - 1) // 3 + 1` (line 115). -/
def quarterOf (month : Int) : Int := (month - 1) / 3 + 1

/-- `quarter_dir = f"Q{quarter}-{year}"` (lines 115-117), as a function
of the modification timestamp. -/
def quarterDirOf (ts : Int) : String :=
  "Q" ++ toString (quarterOf (dtMonth ts)) ++ "-" ++ toString (dtYear ts)

/-- The spec's RetentionDecision variant. -/
inductive RetentionDecision where
  | keep
  | move (quarterLabel : String)
deriving DecidableEq, Repr

/-- The Classifier assembled from the code: the age test of
`should_move_file` (lines 47-53, used at line 111) together with the
quarter-label computation (lines 115-117). -/
def classify (modifiedTime now : Int) : RetentionDecision :=
  if should_move_file modifiedTime now then
    RetentionDecision.move (quarterDirOf modifiedTime)
  else RetentionDecision.keep

/-! ## Paths and filesystem state

A path is its list of components; `os.path.join`, `os.path.dirname`
and `os.path.basename` become list operations.  The filesystem is an
explicit state: an association list of regular files (path to
modification time) and a list of directories.
-/

/-- A filesystem path, as its list of components. -/
abbrev FPath : Type := List String

/-- `os.path.dirname`. -/
def dirname (p : FPath) : FPath := List.dropLast p

/-- `os.path.basename`. -/
def basename (p : FPath) : String := Option.getD (List.getLast? p) ""

/-- `os.path.join`. -/
def pathJoin (d : FPath) (n : String) : FPath := d ++ [n]

/-- Python's `str.endswith`. -/
def strEndsWith (s suf : String) : Bool :=
  decide (suf.data.length ≤ s.data.length) &&
    (List.drop (s.data.length - suf.data.length) s.data == suf.data)

/-- `file_path.endswith(suf)` for a suffix containing no path
separator: equivalent to testing the base filename. -/
def pathEndsWith (p : FPath) (suf : String) : Bool := strEndsWith (basename p) suf

/-- Lookup in the file table (first entry with the given path). -/
def lookupP : List (FPath × Int) → FPath → Option Int
  | [], _ => none
  | e :: t, p => if e.1 = p then some e.2 else lookupP t p

/-- Remove every entry with the given path from the file table. -/
def removeKey : List (FPath × Int) → FPath → List (FPath × Int)
  | [], _ => []
  | e :: t, p => if e.1 = p then removeKey t p else e :: removeKey t p

/-- Boolean membership in a list of paths. -/
def memPath : List FPath → FPath → Bool
  | [], _ => false
  | q :: t, p => if q = p then true else memPath t p

/-- The filesystem state: regular files (with mtimes) and directories. -/
structure FSState where
  files : List (FPath × Int)
  dirs : List FPath
deriving DecidableEq, Repr

/-- `os.path.isfile`. -/
def FSState.isfile (s : FSState) (p : FPath) : Bool := (lookupP s.files p).isSome

/-- `os.path.isdir`. -/
def FSState.isdir (s : FSState) (p : FPath) : Bool := memPath s.dirs p

/-- `os.path.exists`. -/
def os_path_exists (s : FSState) (p : FPath) : Bool := s.isfile p || s.isdir p

/-- Record a new directory. -/
def addDir (s : FSState) (p : FPath) : FSState := FSState.mk s.files (p :: s.dirs)

/-- `os.rename src dst`: the destination acquires the source's entry,
all entries at the source path disappear. -/
def FSState.rename (s : FSState) (src dst : FPath) (m : Int) : FSState :=
  FSState.mk ((dst, m) :: removeKey s.files src) s.dirs

/-! ## Errors and outcomes -/

/-- A raisable Python error: `OSError` with an errno, or any other
`Exception`. -/
inductive PyErr where
  | osError (errno : Int) (msg : String)
  | exc (msg : String)
deriving DecidableEq, Repr

/-- Message carried by an error. -/
def pyMsg : PyErr → String
  | PyErr.osError _ m => m
  | PyErr.exc m => m

/-- `os.makedirs(p, exist_ok := ok)`: raises `OSError` 17 on an
existing path only when `exist_ok` is false. -/
def os_makedirs (exist_ok : Bool) (s : FSState) (p : FPath) : Except PyErr FSState :=
  if os_path_exists s p = true then
    if exist_ok then Except.ok s else Except.error (PyErr.osError 17 "File exists")
  else Except.ok (addDir s p)

/-- Per-call error injection for the fallible OS operations inside
`move_file` and for the directory listing in `sort_files`. -/
structure Faults where
  getmtimeErr : Option PyErr
  makedirsErr : Option PyErr
  renameErr : Option PyErr
  listdirErr : Option PyErr
deriving DecidableEq, Repr

/-- No injected errors. -/
def noFaults : Faults := Faults.mk none none none none

/-- Ambient observations for one `move_file` call: the value of
`shutdown_event.is_set()` at the entry check (line 90) and at the
re-check (line 121), whether a concurrent worker creates the quarter
directory between the existence check and `os.makedirs` (the benign
race), and the wall-clock time `datetime.now()`. -/
structure MoveInput where
  sd1 : Bool
  sd2 : Bool
  raceDir : Bool
  now : Int
deriving DecidableEq, Repr

/-- The quiet run: no shutdown observed, no concurrent interference. -/
def goodInp (now : Int) : MoveInput := MoveInput.mk false false false now

/-- The terminal result recorded for one file, one constructor per
return point of `move_file`. -/
inductive Outcome where
  | cancelledEntry
  | notAFile
  | skippedLogFile
  | skippedExeFile
  | skippedNewer
  | cancelledBeforeOps
  | skippedDestinationExists (dest : FPath)
  | moved (src dest : FPath)
  | skippedLocked
  | failed (msg : String)
  | unexpectedError (msg : String)
deriving DecidableEq, Repr

/-- The `except` clauses of `move_file` (lines 139-145): `OSError`
with errno 13 gives the locked/permission-denied skip, any other
`OSError` the generic error record, and any other `Exception` the
unexpected-error record. -/
def errOutcome : PyErr → Outcome
  | PyErr.osError errno msg =>
      if errno = 13 then Outcome.skippedLocked else Outcome.failed msg
  | PyErr.exc msg => Outcome.unexpectedError msg

/-- Destination path of a file with modification time `m`:
`<dirname>/<quarter dir>/<basename>` (lines 115-128). -/
def destOf (p : FPath) (m : Int) : FPath :=
  pathJoin (pathJoin (dirname p) (quarterDirOf m)) (basename p)

/-! ## The Mover (`move_file`, lines 87-145) -/

/-- The quarter-directory creation step (lines 124-126): create the
directory only when the existence check says it is absent, via
`os.makedirs(..., exist_ok := true)`.  The benign race is modelled by
`race`: a concurrent worker's creation lands between the existence
check and `os.makedirs`. -/
def mkStep (race : Bool) (mkErr : Option PyErr) (s : FSState) (qp : FPath) :
    Except (FSState × PyErr) FSState :=
  if os_path_exists s qp = false then
    let sR := if race = true then addDir s qp else s
    match mkErr with
    | some e => Except.error (sR, e)
    | none =>
      match os_makedirs true sR qp with
      | Except.ok s2 => Except.ok s2
      | Except.error e => Except.error (sR, e)
  else Except.ok s

/-- The `try` block of `move_file` (lines 93-137).  Errors carry the
state at the raise point.  Each OS call first consults its injected
fault. -/
def moveFileBody (inp : MoveInput) (f : Faults) (s : FSState) (fp : FPath) :
    Except (FSState × PyErr) (FSState × Outcome) :=
  if s.isfile fp = false then Except.ok (s, Outcome.notAFile)
  else if pathEndsWith fp ".log" = true then Except.ok (s, Outcome.skippedLogFile)
  else if pathEndsWith fp ".exe" = true then Except.ok (s, Outcome.skippedExeFile)
  else
    match f.getmtimeErr with
    | some e => Except.error (s, e)
    | none =>
      match lookupP s.files fp with
      | none => Except.error (s, PyErr.osError 2 "No such file or directory")
      | some m =>
        if should_move_file m inp.now = false then Except.ok (s, Outcome.skippedNewer)
        else
          let quarter_path := pathJoin (dirname fp) (quarterDirOf m)
          if inp.sd2 = true then Except.ok (s, Outcome.cancelledBeforeOps)
          else
            match mkStep inp.raceDir f.makedirsErr s quarter_path with
            | Except.error se => Except.error se
            | Except.ok s1 =>
              let dest_path := pathJoin quarter_path (basename fp)
              if os_path_exists s1 dest_path = true then
                Except.ok (s1, Outcome.skippedDestinationExists dest_path)
              else
                match f.renameErr with
                | some e => Except.error (s1, e)
                | none => Except.ok (s1.rename fp dest_path m, Outcome.moved fp dest_path)

/-- `move_file` (lines 87-145): the entry shutdown check (line 90),
then the `try` body with its catch-all handlers. -/
def move_file (inp : MoveInput) (f : Faults) (s : FSState) (fp : FPath) :
    FSState × Outcome :=
  if inp.sd1 = true then (s, Outcome.cancelledEntry)
  else
    match moveFileBody inp f s fp with
    | Except.ok r => r
    | Except.error (s', e) => (s', errOutcome e)

/-! ## The Dispatcher (`sort_files`, lines 148-183) -/

/-- Entries of the immediate (non-recursive) directory listing:
files and directories directly inside `d`. -/
def FSState.entriesIn (s : FSState) (d : FPath) : List FPath :=
  List.filter (fun p => !(List.isEmpty p) && (dirname p == d))
    (List.map Prod.fst s.files ++ s.dirs)

/-- `os.listdir`. -/
def FSState.listdir (s : FSState) (d : FPath) : List String :=
  List.map basename (s.entriesIn d)

/-- Lines 157-161: join each listed name to the directory and retain
only regular files. -/
def candidates (s : FSState) (d : FPath) : List FPath :=
  List.filter (fun p => s.isfile p)
    (List.map (fun n => pathJoin d n) (s.listdir d))

/-- Sequential model of submitting every candidate to the pool and
awaiting each worker (lines 167-173). -/
def processList (inp : MoveInput) (f : Faults) : FSState → List FPath → FSState × List Outcome
  | s, [] => (s, [])
  | s, p :: ps =>
    let r := move_file inp f s p
    let rest := processList inp f r.1 ps
    (rest.1, r.2 :: rest.2)

/-- Result of one dispatcher run. -/
inductive RunResult where
  | failedPrecondition
  | fatalError (msg : String)
  | completed (outcomes : List Outcome)
deriving DecidableEq, Repr

/-- `sort_files` (lines 148-183): the existence precondition
(lines 151-154), the listing (lines 156-161, with a possible injected
listing error caught by the outer handler of lines 180-181), then the
per-file work. -/
def sort_files (inp : MoveInput) (f : Faults) (s : FSState) (dir_path : FPath) :
    FSState × RunResult :=
  if os_path_exists s dir_path = false then (s, RunResult.failedPrecondition)
  else
    match f.listdirErr with
    | some e => (s, RunResult.fatalError (pyMsg e))
    | none =>
      let r := processList inp f s (candidates s dir_path)
      (r.1, RunResult.completed r.2)

/-- Invariant used for idempotence: a reason the Mover will not
relocate `p` in state `s` at time `now` — not a regular file, a
protected extension, within the retention window, or the quarter
destination already occupied. -/
def noMoveReason (s : FSState) (now : Int) (p : FPath) : Prop :=
  s.isfile p = false ∨ pathEndsWith p ".log" = true ∨ pathEndsWith p ".exe" = true ∨
  ∃ m, lookupP s.files p = some m ∧
    (should_move_file m now = false ∨ os_path_exists s (destOf p m) = true)

/-! ## Basic lemmas about paths and state operations -/

theorem dirname_pathJoin (d : FPath) (n : String) : dirname (pathJoin d n) = d := by
  simp [dirname, pathJoin]

theorem basename_pathJoin (d : FPath) (n : String) : basename (pathJoin d n) = n := by
  simp [basename, pathJoin]

theorem ne_pathJoin_self (d : FPath) (n : String) : d ≠ pathJoin d n := by
  intro h
  have : d.length = (pathJoin d n).length := by rw [← h]
  simp [pathJoin] at this

theorem lookupP_removeKey_self (l : List (FPath × Int)) (src : FPath) :
    lookupP (removeKey l src) src = none := by
  induction l with
  | nil => rfl
  | cons e t ih =>
    by_cases h : e.1 = src
    · simpa [removeKey, h] using ih
    · simp [removeKey, h, lookupP, ih]

theorem lookupP_removeKey_ne (l : List (FPath × Int)) (src p : FPath) (h : p ≠ src) :
    lookupP (removeKey l src) p = lookupP l p := by
  have hsp : src ≠ p := fun hc => h hc.symm
  induction l with
  | nil => rfl
  | cons e t ih =>
    by_cases he : e.1 = src
    · have hep : e.1 ≠ p := he ▸ hsp
      simp [removeKey, he, lookupP, hep, ih, hsp]
    · simp [removeKey, he, lookupP, ih]

theorem lookupP_isSome_iff (l : List (FPath × Int)) (p : FPath) :
    (lookupP l p).isSome = true ↔ p ∈ List.map Prod.fst l := by
  induction l with
  | nil => simp [lookupP]
  | cons e t ih =>
    by_cases h : e.1 = p
    · simp [lookupP, h]
    · have hpe : ¬ p = e.1 := fun hc => h hc.symm
      simp [lookupP, h, ih, hpe]

theorem memPath_cons (q : FPath) (l : List FPath) (p : FPath) :
    memPath (q :: l) p = if q = p then true else memPath l p := rfl

theorem files_addDir (s : FSState) (q : FPath) : (addDir s q).files = s.files := rfl

theorem isfile_addDir (s : FSState) (q p : FPath) : (addDir s q).isfile p = s.isfile p := rfl

theorem os_path_exists_addDir (s : FSState) (q p : FPath) :
    os_path_exists (addDir s q) p = (if q = p then true else os_path_exists s p) := by
  by_cases h : q = p <;>
    simp [os_path_exists, FSState.isdir, addDir, memPath_cons, h, FSState.isfile]

theorem os_path_exists_addDir_mono (s : FSState) (q p : FPath)
    (h : os_path_exists s p = true) : os_path_exists (addDir s q) p = true := by
  rw [os_path_exists_addDir]
  by_cases hq : q = p <;> simp [hq, h]

theorem mkStep_exists (race : Bool) (mkErr : Option PyErr) (s : FSState) (qp : FPath)
    (h : os_path_exists s qp = true) : mkStep race mkErr s qp = Except.ok s := by
  simp [mkStep, h]

theorem mkStep_not_exists_none (race : Bool) (s : FSState) (qp : FPath)
    (h : os_path_exists s qp = false) :
    mkStep race none s qp = Except.ok (addDir s qp) := by
  by_cases hr : race = true
  · simp [mkStep, h, hr, os_makedirs, os_path_exists_addDir]
  · simp [mkStep, h, hr, os_makedirs]

theorem mkStep_not_exists_some (race : Bool) (s : FSState) (qp : FPath) (e : PyErr)
    (h : os_path_exists s qp = false) :
    mkStep race (some e) s qp =
      Except.error ((if race = true then addDir s qp else s), e) := by
  simp [mkStep, h]

theorem files_rename (s : FSState) (src dst : FPath) (m : Int) :
    (s.rename src dst m).files = (dst, m) :: removeKey s.files src := rfl

theorem dirs_rename (s : FSState) (src dst : FPath) (m : Int) :
    (s.rename src dst m).dirs = s.dirs := rfl

theorem isfile_rename (s : FSState) (src dst p : FPath) (m : Int) :
    (s.rename src dst m).isfile p =
      (if dst = p then true else (lookupP (removeKey s.files src) p).isSome) := by
  by_cases h : dst = p <;> simp [FSState.isfile, files_rename, lookupP, h]

theorem os_path_exists_rename_mono (s : FSState) (src dst p : FPath) (m : Int)
    (hne : p ≠ src) (h : os_path_exists s p = true) :
    os_path_exists (s.rename src dst m) p = true := by
  unfold os_path_exists at h ⊢
  rcases Bool.or_eq_true_iff.1 h with hf | hd
  · refine Bool.or_eq_true_iff.2 (Or.inl ?_)
    rw [isfile_rename]
    by_cases hdst : dst = p
    · simp [hdst]
    · simpa [hdst, lookupP_removeKey_ne _ _ _ hne] using hf
  · exact Bool.or_eq_true_iff.2 (Or.inr hd)

theorem errOutcome_ne_moved (e : PyErr) (a b : FPath) :
    errOutcome e ≠ Outcome.moved a b := by
  cases e with
  | osError n msg => by_cases h : n = 13 <;> simp [errOutcome, h]
  | exc msg => simp [errOutcome]

/-- Inversion: whatever the ambient observations and injected faults,
a `moved` outcome can only arise by passing every guard, and then the
whole call is the rename of the source to its quarter destination,
performed on an intermediate state that extends the input state only
by (possibly) the quarter directory and in which the destination did
not exist. -/
theorem move_file_moved_inv (inp : MoveInput) (f : Faults) (s : FSState) (p a b : FPath)
    (h : (move_file inp f s p).2 = Outcome.moved a b) :
    a = p ∧ ∃ m s1, lookupP s.files p = some m ∧
      should_move_file m inp.now = true ∧
      pathEndsWith p ".log" = false ∧ pathEndsWith p ".exe" = false ∧
      b = destOf p m ∧
      s1.files = s.files ∧
      (∀ x, os_path_exists s x = true → os_path_exists s1 x = true) ∧
      os_path_exists s1 (destOf p m) = false ∧
      move_file inp f s p =
        (FSState.rename s1 p (destOf p m) m, Outcome.moved p (destOf p m)) := by
  by_cases h1 : inp.sd1 = true
  · simp [move_file, h1] at h
  · by_cases hf : s.isfile p = false
    · simp [move_file, moveFileBody, h1, hf] at h
    · by_cases hlog : pathEndsWith p ".log" = true
      · simp [move_file, moveFileBody, h1, hf, hlog] at h
      · by_cases hexe : pathEndsWith p ".exe" = true
        · simp [move_file, moveFileBody, h1, hf, hlog, hexe] at h
        · cases hget : f.getmtimeErr with
          | some e =>
            simp [move_file, moveFileBody, h1, hf, hlog, hexe, hget] at h
            exact absurd h (errOutcome_ne_moved e a b)
          | none =>
            cases hlk : lookupP s.files p with
            | none =>
              simp [move_file, moveFileBody, h1, hf, hlog, hexe, hget, hlk] at h
              exact absurd h
                (errOutcome_ne_moved (PyErr.osError 2 "No such file or directory") a b)
            | some m =>
              by_cases hmv : should_move_file m inp.now = false
              · simp [move_file, moveFileBody, h1, hf, hlog, hexe, hget, hlk, hmv] at h
              · by_cases h2 : inp.sd2 = true
                · simp [move_file, moveFileBody, h1, hf, hlog, hexe, hget, hlk,
                    hmv, h2] at h
                · by_cases hqp :
                    os_path_exists s (pathJoin (dirname p) (quarterDirOf m)) = false
                  · cases hmk : f.makedirsErr with
                    | some e =>
                      simp [move_file, moveFileBody, h1, hf, hlog, hexe, hget, hlk,
                        hmv, h2, hmk, mkStep_not_exists_some, hqp] at h
                      exact absurd h (errOutcome_ne_moved e a b)
                    | none =>
                      by_cases hdest :
                        os_path_exists (addDir s (pathJoin (dirname p) (quarterDirOf m)))
                          (pathJoin (pathJoin (dirname p) (quarterDirOf m)) (basename p)) =
                          true
                      · simp [move_file, moveFileBody, h1, hf, hlog, hexe, hget, hlk,
                          hmv, h2, hmk, mkStep_not_exists_none, hqp, hdest] at h
                      · cases hren : f.renameErr with
                        | some e =>
                          simp [move_file, moveFileBody, h1, hf, hlog, hexe, hget, hlk,
                            hmv, h2, hmk, mkStep_not_exists_none, hqp, hdest, hren] at h
                          exact absurd h (errOutcome_ne_moved e a b)
                        | none =>
                          have hmf : move_file inp f s p =
                              ((addDir s (pathJoin (dirname p) (quarterDirOf m))).rename
                                  p (destOf p m) m,
                                Outcome.moved p (destOf p m)) := by
                            simp [move_file, moveFileBody, h1, hf, hlog, hexe, hget,
                              hlk, hmv, h2, hmk, mkStep_not_exists_none, hqp, hdest,
                              hren, destOf]
                          rw [hmf] at h
                          simp only [] at h
                          injection h with hpa hdb
                          refine ⟨hpa.symm, m,
                            addDir s (pathJoin (dirname p) (quarterDirOf m)), rfl,
                            by simpa using hmv, by simpa using hlog, by simpa using hexe,
                            hdb.symm, rfl,
                            fun x hx => os_path_exists_addDir_mono s _ x hx,
                            by simpa [destOf] using hdest, hmf⟩
                  · have hqp' :
                        os_path_exists s (pathJoin (dirname p) (quarterDirOf m)) = true := by
                      simpa using hqp
                    by_cases hdest :
                      os_path_exists s
                        (pathJoin (pathJoin (dirname p) (quarterDirOf m)) (basename p)) =
                        true
                    · simp [move_file, moveFileBody, h1, hf, hlog, hexe, hget, hlk,
                        hmv, h2, mkStep_exists, hqp', hdest] at h
                    · cases hren : f.renameErr with
                      | some e =>
                        simp [move_file, moveFileBody, h1, hf, hlog, hexe, hget, hlk,
                          hmv, h2, mkStep_exists, hqp', hdest, hren] at h
                        exact absurd h (errOutcome_ne_moved e a b)
                      | none =>
                        have hmf : move_file inp f s p =
                            (FSState.rename s p (destOf p m) m,
                              Outcome.moved p (destOf p m)) := by
                          simp [move_file, moveFileBody, h1, hf, hlog, hexe, hget,
                            hlk, hmv, h2, mkStep_exists, hqp', hdest, hren, destOf]
                        rw [hmf] at h
                        simp only [] at h
                        injection h with hpa hdb
                        refine ⟨hpa.symm, m, s, rfl,
                          by simpa using hmv, by simpa using hlog, by simpa using hexe,
                          hdb.symm, rfl, fun x hx => hx,
                          by simpa [destOf] using hdest, hmf⟩

theorem processList_length (inp : MoveInput) (f : Faults) :
    ∀ (ps : List FPath) (s : FSState),
      ((processList inp f s ps).2).length = ps.length := by
  intro ps
  induction ps with
  | nil => intro s; rfl
  | cons p t ih => intro s; simp [processList, ih]

theorem listdirErr_noFaults : noFaults.listdirErr = none := rfl

theorem destOf_dirname_ne (p q : FPath) (m : Int) (h : dirname q = dirname p) :
    destOf p m ≠ q := by
  intro hc
  have h1 : dirname (destOf p m) = dirname q := by rw [hc]
  rw [destOf, dirname_pathJoin, h] at h1
  exact ne_pathJoin_self (dirname p) (quarterDirOf m) h1.symm

/-- On a quiet run (no cancellation, no interference, no faults),
`move_file` always leaves behind a reason not to move the same file
again; and when it does not move, the file table is unchanged and
existing paths keep existing. -/
theorem move_file_quiet (now : Int) (s : FSState) (p : FPath) :
    noMoveReason (move_file (goodInp now) noFaults s p).1 now p ∧
    ((∃ a b, (move_file (goodInp now) noFaults s p).2 = Outcome.moved a b) ∨
     ((move_file (goodInp now) noFaults s p).1.files = s.files ∧
      ∀ x, os_path_exists s x = true →
        os_path_exists (move_file (goodInp now) noFaults s p).1 x = true)) := by
  by_cases hf : s.isfile p = false
  · have hr : move_file (goodInp now) noFaults s p = (s, Outcome.notAFile) := by
      simp [move_file, moveFileBody, goodInp, hf]
    rw [hr]
    exact ⟨Or.inl hf, Or.inr ⟨rfl, fun x hx => hx⟩⟩
  · by_cases hlog : pathEndsWith p ".log" = true
    · have hr : move_file (goodInp now) noFaults s p = (s, Outcome.skippedLogFile) := by
        simp [move_file, moveFileBody, goodInp, hf, hlog]
      rw [hr]
      exact ⟨Or.inr (Or.inl hlog), Or.inr ⟨rfl, fun x hx => hx⟩⟩
    · by_cases hexe : pathEndsWith p ".exe" = true
      · have hr : move_file (goodInp now) noFaults s p = (s, Outcome.skippedExeFile) := by
          simp [move_file, moveFileBody, goodInp, hf, hlog, hexe]
        rw [hr]
        exact ⟨Or.inr (Or.inr (Or.inl hexe)), Or.inr ⟨rfl, fun x hx => hx⟩⟩
      · cases hlk : lookupP s.files p with
        | none => exact absurd (by simp [FSState.isfile, hlk]) hf
        | some m =>
          by_cases hmv : should_move_file m now = false
          · have hr : move_file (goodInp now) noFaults s p = (s, Outcome.skippedNewer) := by
              simp [move_file, moveFileBody, goodInp, noFaults, hf, hlog, hexe, hlk, hmv]
            rw [hr]
            exact ⟨Or.inr (Or.inr (Or.inr ⟨m, hlk, Or.inl hmv⟩)),
              Or.inr ⟨rfl, fun x hx => hx⟩⟩
          · by_cases hqp :
              os_path_exists s (pathJoin (dirname p) (quarterDirOf m)) = false
            · by_cases hdest :
                os_path_exists (addDir s (pathJoin (dirname p) (quarterDirOf m)))
                  (pathJoin (pathJoin (dirname p) (quarterDirOf m)) (basename p)) = true
              · have hr : move_file (goodInp now) noFaults s p =
                    (addDir s (pathJoin (dirname p) (quarterDirOf m)),
                     Outcome.skippedDestinationExists
                       (pathJoin (pathJoin (dirname p) (quarterDirOf m)) (basename p))) := by
                  simp [move_file, moveFileBody, goodInp, noFaults, hf, hlog, hexe,
                    hlk, hmv, mkStep_not_exists_none, hqp, hdest]
                rw [hr]
                refine ⟨Or.inr (Or.inr (Or.inr ⟨m, hlk, Or.inr ?_⟩)),
                  Or.inr ⟨rfl, fun x hx => os_path_exists_addDir_mono _ _ _ hx⟩⟩
                simpa [destOf] using hdest
              · have hr : move_file (goodInp now) noFaults s p =
                    ((addDir s (pathJoin (dirname p) (quarterDirOf m))).rename p
                       (pathJoin (pathJoin (dirname p) (quarterDirOf m)) (basename p)) m,
                     Outcome.moved p
                       (pathJoin (pathJoin (dirname p) (quarterDirOf m)) (basename p))) := by
                  simp [move_file, moveFileBody, goodInp, noFaults, hf, hlog, hexe,
                    hlk, hmv, mkStep_not_exists_none, hqp, hdest]
                rw [hr]
                refine ⟨Or.inl ?_, Or.inl ⟨p, _, rfl⟩⟩
                rw [isfile_rename]
                have hdp :
                    pathJoin (pathJoin (dirname p) (quarterDirOf m)) (basename p) ≠ p := by
                  simpa [destOf] using destOf_dirname_ne p p m rfl
                simp [hdp, lookupP_removeKey_self]
            · have hqp' :
                  os_path_exists s (pathJoin (dirname p) (quarterDirOf m)) = true := by
                simpa using hqp
              by_cases hdest :
                os_path_exists s
                  (pathJoin (pathJoin (dirname p) (quarterDirOf m)) (basename p)) = true
              · have hr : move_file (goodInp now) noFaults s p =
                    (s, Outcome.skippedDestinationExists
                       (pathJoin (pathJoin (dirname p) (quarterDirOf m)) (basename p))) := by
                  simp [move_file, moveFileBody, goodInp, noFaults, hf, hlog, hexe,
                    hlk, hmv, mkStep_exists, hqp', hdest]
                rw [hr]
                refine ⟨Or.inr (Or.inr (Or.inr ⟨m, hlk, Or.inr ?_⟩)),
                  Or.inr ⟨rfl, fun x hx => hx⟩⟩
                simpa [destOf] using hdest
              · have hr : move_file (goodInp now) noFaults s p =
                    (FSState.rename s p
                       (pathJoin (pathJoin (dirname p) (quarterDirOf m)) (basename p)) m,
                     Outcome.moved p
                       (pathJoin (pathJoin (dirname p) (quarterDirOf m)) (basename p))) := by
                  simp [move_file, moveFileBody, goodInp, noFaults, hf, hlog, hexe,
                    hlk, hmv, mkStep_exists, hqp', hdest]
                rw [hr]
                refine ⟨Or.inl ?_, Or.inl ⟨p, _, rfl⟩⟩
                rw [isfile_rename]
                have hdp :
                    pathJoin (pathJoin (dirname p) (quarterDirOf m)) (basename p) ≠ p := by
                  simpa [destOf] using destOf_dirname_ne p p m rfl
                simp [hdp, lookupP_removeKey_self]

/-- A standing `noMoveReason` blocks the move on a quiet run. -/
theorem noMoveReason_blocks (now : Int) (s : FSState) (p : FPath)
    (hn : noMoveReason s now p) :
    ∀ a b, (move_file (goodInp now) noFaults s p).2 ≠ Outcome.moved a b := by
  intro a b h
  obtain ⟨hpa, m, s1, hlk, hmv, hlog, hexe, hb, hfiles, hmono, hdest, heq⟩ :=
    move_file_moved_inv _ _ _ _ _ _ h
  rcases hn with h1 | h2 | h3 | ⟨m', hlk', hor⟩
  · simp [FSState.isfile, hlk] at h1
  · rw [hlog] at h2
    cases h2
  · rw [hexe] at h3
    cases h3
  · rw [hlk'] at hlk
    injection hlk with hm
    rcases hor with hmv' | hex
    · rw [hm] at hmv'
      have hmv2 : should_move_file m now = true := hmv
      rw [hmv'] at hmv2
      cases hmv2
    · rw [hm] at hex
      rw [hmono _ hex] at hdest
      cases hdest

/-- Processing one sibling file (same parent directory) on a quiet
run preserves a standing `noMoveReason` for any other file. -/
theorem noMoveReason_preserved (now : Int) (s : FSState) (p q : FPath)
    (hd : dirname p = dirname q) (hn : noMoveReason s now p) :
    noMoveReason (move_file (goodInp now) noFaults s q).1 now p := by
  by_cases hm : ∃ a b, (move_file (goodInp now) noFaults s q).2 = Outcome.moved a b
  · obtain ⟨a, b, hmv⟩ := hm
    obtain ⟨hpa, mq, s1, hlkq, hmvq, _, _, hb, hfiles, hmono, hdest, heq⟩ :=
      move_file_moved_inv _ _ _ _ _ _ hmv
    by_cases hpq : p = q
    · exact absurd (hpq ▸ hmv) (noMoveReason_blocks now s p hn a b)
    · rw [heq]
      have hqdest : destOf q mq ≠ p := destOf_dirname_ne q p mq hd
      rcases hn with h1 | h2 | h3 | ⟨m, hlk, hor⟩
      · refine Or.inl ?_
        rw [isfile_rename]
        simp only [hqdest, if_false]
        rw [lookupP_removeKey_ne _ _ _ hpq, hfiles]
        simpa [FSState.isfile] using h1
      · exact Or.inr (Or.inl h2)
      · exact Or.inr (Or.inr (Or.inl h3))
      · refine Or.inr (Or.inr (Or.inr ⟨m, ?_, ?_⟩))
        · rw [files_rename]
          simp only [lookupP, hqdest, if_false]
          rw [lookupP_removeKey_ne _ _ _ hpq, hfiles]
          exact hlk
        · rcases hor with ha | hex
          · exact Or.inl ha
          · refine Or.inr (os_path_exists_rename_mono s1 q (destOf q mq) (destOf p m) mq
              (destOf_dirname_ne p q m hd.symm) (hmono _ hex))
  · have hm' : ∀ a b, (move_file (goodInp now) noFaults s q).2 ≠ Outcome.moved a b :=
      fun a b hc => hm ⟨a, b, hc⟩
    rcases (move_file_quiet now s q).2 with hmov | ⟨hfiles, hmono⟩
    · obtain ⟨a, b, hc⟩ := hmov
      exact absurd hc (hm' a b)
    · rcases hn with h1 | h2 | h3 | ⟨m, hlk, hor⟩
      · exact Or.inl (by simpa [FSState.isfile, hfiles] using h1)
      · exact Or.inr (Or.inl h2)
      · exact Or.inr (Or.inr (Or.inl h3))
      · refine Or.inr (Or.inr (Or.inr ⟨m, ?_, ?_⟩))
        · rw [hfiles]
          exact hlk
        · rcases hor with ha | hex
          · exact Or.inl ha
          · exact Or.inr (hmono _ hex)

/-- `noMoveReason` for a sibling file survives processing a whole
list of sibling files on a quiet run. -/
theorem processList_preserves (now : Int) (d : FPath) :
    ∀ (ps : List FPath) (s : FSState) (p : FPath),
      (∀ q ∈ ps, dirname q = d) → dirname p = d → noMoveReason s now p →
      noMoveReason (processList (goodInp now) noFaults s ps).1 now p := by
  intro ps
  induction ps with
  | nil => intro s p _ _ hn; simpa [processList] using hn
  | cons q t ih =>
    intro s p hall hp hn
    simp only [processList]
    apply ih _ p (fun r hr => hall r (List.mem_cons_of_mem q hr)) hp
    apply noMoveReason_preserved now s p q ?_ hn
    rw [hp, hall q (List.mem_cons_self q t)]

/-- After a quiet run over a list of sibling files, every file of the
list carries a `noMoveReason` in the final state. -/
theorem processList_establishes (now : Int) (d : FPath) :
    ∀ (ps : List FPath) (s : FSState),
      (∀ q ∈ ps, dirname q = d) →
      ∀ p ∈ ps, noMoveReason (processList (goodInp now) noFaults s ps).1 now p := by
  intro ps
  induction ps with
  | nil =>
    intro s _ p hp
    cases hp
  | cons q t ih =>
    intro s hall p hp
    simp only [processList]
    rcases List.mem_cons.mp hp with rfl | hpt
    · apply processList_preserves now d t _ p
        (fun r hr => hall r (List.mem_cons_of_mem p hr))
        (hall p (List.mem_cons_self p t))
      exact (move_file_quiet now s p).1
    · exact ih _ (fun r hr => hall r (List.mem_cons_of_mem q hr)) p hpt

/-- If every file of a sibling list already carries a
`noMoveReason`, a quiet run over the list produces no move. -/
theorem processList_no_moved (now : Int) (d : FPath) :
    ∀ (ps : List FPath) (s : FSState),
      (∀ q ∈ ps, dirname q = d) →
      (∀ p ∈ ps, noMoveReason s now p) →
      ∀ o ∈ (processList (goodInp now) noFaults s ps).2,
        ∀ a b, o ≠ Outcome.moved a b := by
  intro ps
  induction ps with
  | nil =>
    intro s _ _ o ho
    simp [processList] at ho
  | cons q t ih =>
    intro s hall hn o ho
    simp only [processList, List.mem_cons] at ho
    rcases ho with rfl | hot
    · exact noMoveReason_blocks now s q (hn q (List.mem_cons_self q t))
    · apply ih (move_file (goodInp now) noFaults s q).1
        (fun r hr => hall r (List.mem_cons_of_mem q hr)) ?_ o hot
      intro p hp
      apply noMoveReason_preserved now s p q ?_ (hn p (List.mem_cons_of_mem q hp))
      rw [hall p (List.mem_cons_of_mem q hp), hall q (List.mem_cons_self q t)]

/-- A file present under the scanned directory after a quiet run over
sibling files was already present before: renames only ever deposit
files one level deeper, inside quarter directories. -/
theorem processList_isfile_origin (now : Int) (d : FPath) :
    ∀ (ps : List FPath) (s : FSState) (x : FPath),
      (∀ q ∈ ps, dirname q = d) → dirname x = d →
      (processList (goodInp now) noFaults s ps).1.isfile x = true →
      s.isfile x = true := by
  intro ps
  induction ps with
  | nil =>
    intro s x _ _ h
    simpa [processList] using h
  | cons q t ih =>
    intro s x hall hx h
    simp only [processList] at h
    have hrec : (move_file (goodInp now) noFaults s q).1.isfile x = true :=
      ih _ x (fun r hr => hall r (List.mem_cons_of_mem q hr)) hx h
    by_cases hm : ∃ a b, (move_file (goodInp now) noFaults s q).2 = Outcome.moved a b
    · obtain ⟨a, b, hmv⟩ := hm
      obtain ⟨hpa, mq, s1, hlkq, hmvq, _, _, hb, hfiles, hmono, hdest, heq⟩ :=
        move_file_moved_inv _ _ _ _ _ _ hmv
      rw [heq, isfile_rename] at hrec
      have hdx : destOf q mq ≠ x := by
        apply destOf_dirname_ne
        rw [hx, hall q (List.mem_cons_self q t)]
      rw [if_neg hdx] at hrec
      by_cases hxq : x = q
      · rw [hxq, lookupP_removeKey_self] at hrec
        cases hrec
      · rw [lookupP_removeKey_ne _ _ _ hxq, hfiles] at hrec
        exact hrec
    · rcases (move_file_quiet now s q).2 with hmov | ⟨hfiles, _⟩
      · obtain ⟨a, b, hc⟩ := hmov
        exact absurd hc (fun hcc => hm ⟨a, b, hc⟩)
      · rw [FSState.isfile, hfiles] at hrec
        exact hrec

/-- Membership in the dispatcher's candidate list: exactly the
regular files directly inside the scanned directory. -/
theorem mem_candidates_iff (s : FSState) (d : FPath) (p : FPath) :
    p ∈ candidates s d ↔ s.isfile p = true ∧ ∃ n, p = pathJoin d n := by
  unfold candidates FSState.listdir FSState.entriesIn
  constructor
  · intro h
    rcases List.mem_filter.mp h with ⟨hmem, hfile⟩
    refine ⟨by simpa using hfile, ?_⟩
    rcases List.mem_map.mp hmem with ⟨n, _, rfl⟩
    exact ⟨n, rfl⟩
  · rintro ⟨hfile, n, rfl⟩
    apply List.mem_filter.mpr
    refine ⟨?_, by simpa using hfile⟩
    apply List.mem_map.mpr
    refine ⟨n, ?_, rfl⟩
    apply List.mem_map.mpr
    refine ⟨pathJoin d n, ?_, basename_pathJoin d n⟩
    apply List.mem_filter.mpr
    constructor
    · apply List.mem_append_left
      exact (lookupP_isSome_iff s.files (pathJoin d n)).mp (by simpa [FSState.isfile] using hfile)
    · simp [pathJoin, dirname]

theorem candidates_dirname (s : FSState) (d : FPath) (p : FPath)
    (h : p ∈ candidates s d) : dirname p = d := by
  obtain ⟨_, n, rfl⟩ := (mem_candidates_iff s d p).mp h
  exact dirname_pathJoin d n

/-! ## Claim theorems -/

/-- Claim C1 (amended): with cutoff = now − 90 days, a modification
time strictly before the cutoff (now − T > 90 days) classifies as
Move with the quarter label, and a modification time at or after the
cutoff (now − T ≤ 90 days) classifies as Keep; in particular the
boundary case of a file exactly 90 days old is kept. -/
theorem classify_cutoff (T now : Int) :
    classify T now =
      if T < now - CURRENT_RELEVANT_TIME_FRAME * SECONDS_PER_DAY then
        RetentionDecision.move (quarterDirOf T)
      else RetentionDecision.keep := by
  by_cases h : T < now - CURRENT_RELEVANT_TIME_FRAME * SECONDS_PER_DAY <;>
    simp [classify, should_move_file, h]

/-- Claim C1 counterexample: a file modified 2024-06-03 evaluated at
now = 2024-09-01 is exactly 90 days old, so now − T ≥ 90 days holds,
yet the code classifies it as Keep (the comparison in
`should_move_file` is strict), contradicting the claim's "now − T ≥
90 days yields Move". -/
theorem classify_boundary_counterexample :
    tsOfCivil 2024 9 1 - tsOfCivil 2024 6 3 ≥
      CURRENT_RELEVANT_TIME_FRAME * SECONDS_PER_DAY ∧
    classify (tsOfCivil 2024 6 3) (tsOfCivil 2024 9 1) = RetentionDecision.keep := by
  constructor
  · decide
  · decide

/-- Claim C8: if the target directory does not exist, `sort_files`
reports the precondition failure and returns with the state untouched
(no per-file work); if the directory exists but the listing raises,
the outer handler reports a fatal error, again with no per-file
work. -/
theorem sort_files_fail_fast :
    (∀ inp f s d, os_path_exists s d = false →
       sort_files inp f s d = (s, RunResult.failedPrecondition)) ∧
    (∀ inp f s d e, os_path_exists s d = true → f.listdirErr = some e →
       sort_files inp f s d = (s, RunResult.fatalError (pyMsg e))) := by
  constructor
  · intro inp f s d h
    simp [sort_files, h]
  · intro inp f s d e h hl
    simp [sort_files, h, hl]

/-- Witness for C8 at concrete inputs. -/
theorem sort_files_fail_fast_witness :
    sort_files (goodInp 0) noFaults (FSState.mk [] []) ["missing"] =
      (FSState.mk [] [], RunResult.failedPrecondition) ∧
    sort_files (goodInp 0) (Faults.mk none none none (some (PyErr.exc "boom")))
        (FSState.mk [] [["d"]]) ["d"] =
      (FSState.mk [] [["d"]], RunResult.fatalError "boom") :=
  ⟨sort_files_fail_fast.1 _ _ _ _ (by decide),
   sort_files_fail_fast.2 _ _ _ _ (PyErr.exc "boom") (by decide) rfl⟩

/-- Claim C9: directory creation is idempotent and race-tolerant:
with `exist_ok` (as passed at line 126) an already-existing directory
is success, not an error; creation always succeeds and afterwards the
directory exists; and a concurrent worker creating the same quarter
directory between the existence check and `os.makedirs` does not
change the result of `move_file` at all. -/
theorem makedirs_race_benign :
    (∀ s p, os_path_exists s p = true → os_makedirs true s p = Except.ok s) ∧
    (∀ s p, ∃ s', os_makedirs true s p = Except.ok s' ∧
       os_path_exists s' p = true) ∧
    (∀ c1 c2 now f s p, f.makedirsErr = none →
       move_file (MoveInput.mk c1 c2 true now) f s p =
         move_file (MoveInput.mk c1 c2 false now) f s p) := by
  refine ⟨?_, ?_, ?_⟩
  · intro s p h
    simp [os_makedirs, h]
  · intro s p
    by_cases h : os_path_exists s p = true
    · exact ⟨s, by simp [os_makedirs, h], h⟩
    · refine ⟨addDir s p, by simp [os_makedirs, h], ?_⟩
      rw [os_path_exists_addDir]
      simp
  · intro c1 c2 now f s p hmk
    by_cases ha : c1 = true
    · simp [move_file, ha]
    · by_cases hf : s.isfile p = false
      · simp [move_file, moveFileBody, ha, hf]
      · by_cases hlog : pathEndsWith p ".log" = true
        · simp [move_file, moveFileBody, ha, hf, hlog]
        · by_cases hexe : pathEndsWith p ".exe" = true
          · simp [move_file, moveFileBody, ha, hf, hlog, hexe]
          · cases hlk : lookupP s.files p with
            | none => simp [move_file, moveFileBody, ha, hf, hlog, hexe, hlk]
            | some m =>
              by_cases hmv : should_move_file m now = false
              · simp [move_file, moveFileBody, ha, hf, hlog, hexe, hlk, hmv]
              · by_cases hb : c2 = true
                · simp [move_file, moveFileBody, ha, hf, hlog, hexe, hlk, hmv, hb]
                · by_cases hqp :
                    os_path_exists s (pathJoin (dirname p) (quarterDirOf m)) = false
                  · simp [move_file, moveFileBody, ha, hf, hlog, hexe, hlk, hmv, hb,
                      hmk, mkStep_not_exists_none, hqp]
                  · have hqp' :
                        os_path_exists s (pathJoin (dirname p) (quarterDirOf m)) = true := by
                      simpa using hqp
                    simp [move_file, moveFileBody, ha, hf, hlog, hexe, hlk, hmv, hb,
                      hmk, mkStep_exists, hqp']

/-- Witness for C9 at concrete inputs. -/
theorem makedirs_race_benign_witness :
    os_makedirs true (FSState.mk [] [["d"]]) ["d"] = Except.ok (FSState.mk [] [["d"]]) ∧
    move_file (MoveInput.mk false false true 7776001)
        (Faults.mk none none none none) (FSState.mk [([], 0)] []) [] =
      move_file (MoveInput.mk false false false 7776001)
        (Faults.mk none none none none) (FSState.mk [([], 0)] []) [] :=
  ⟨makedirs_race_benign.1 _ _ (by decide),
   makedirs_race_benign.2.2 false false 7776001 _ _ _ rfl⟩

/-- Claim C10: the per-file worker never propagates an exception: the
entry shutdown check aside, `move_file` is exactly its `try` body with
every raised error — `OSError` with any errno, and any other
exception — converted by the handlers into a logged outcome, so the
dispatcher's await never observes a raised exception. -/
theorem move_file_catches_all :
    ∀ inp f s p, inp.sd1 = false →
      ((∀ r, moveFileBody inp f s p = Except.ok r → move_file inp f s p = r) ∧
       (∀ s' e, moveFileBody inp f s p = Except.error (s', e) →
          move_file inp f s p = (s', errOutcome e)) ∧
       (∀ n msg, errOutcome (PyErr.osError n msg) =
          if n = 13 then Outcome.skippedLocked else Outcome.failed msg) ∧
       (∀ msg, errOutcome (PyErr.exc msg) = Outcome.unexpectedError msg)) := by
  intro inp f s p h
  refine ⟨?_, ?_, fun n msg => rfl, fun msg => rfl⟩
  · intro r hr
    simp [move_file, h, hr]
  · intro s' e hr
    simp [move_file, h, hr]

/-- Witness for C10 at concrete inputs: a successful body is returned
as-is, and an injected rename error is converted by the catch-all
handler into a logged outcome rather than propagated. -/
theorem move_file_catches_all_witness :
    move_file (goodInp 0) noFaults (FSState.mk [] []) [] =
      (FSState.mk [] [], Outcome.notAFile) ∧
    move_file (goodInp 7776001) (Faults.mk none none (some (PyErr.exc "X")) none)
        (FSState.mk [(["a"], 0)] []) ["a"] =
      (FSState.mk [(["a"], 0)] [["Q1-1970"]], Outcome.unexpectedError "X") :=
  ⟨(move_file_catches_all (goodInp 0) noFaults (FSState.mk [] []) [] rfl).1 _ rfl,
   (move_file_catches_all (goodInp 7776001)
      (Faults.mk none none (some (PyErr.exc "X")) none)
      (FSState.mk [(["a"], 0)] []) ["a"] rfl).2.1
     (FSState.mk [(["a"], 0)] [["Q1-1970"]]) (PyErr.exc "X") rfl⟩

/-- Claim C3: once the cancellation flag is observed set, no new
file-move side effect begins: if the flag is set at the entry check,
`move_file` returns immediately with no outcome logged; and if it is
observed set at either checkpoint, the state is returned unchanged
(the destructive rename never starts). -/
theorem cancellation_blocks_new_moves :
    ∀ inp f s p,
      (inp.sd1 = true → move_file inp f s p = (s, Outcome.cancelledEntry)) ∧
      (inp.sd1 = true ∨ inp.sd2 = true →
        (move_file inp f s p).1 = s ∧
        ∀ a b, (move_file inp f s p).2 ≠ Outcome.moved a b) := by
  intro inp f s p
  constructor
  · intro h
    simp [move_file, h]
  · intro h
    by_cases h1 : inp.sd1 = true
    · simp [move_file, h1]
    · have h2 : inp.sd2 = true := h.resolve_left h1
      by_cases hf : s.isfile p = false
      · simp [move_file, moveFileBody, h1, hf]
      · by_cases hlog : pathEndsWith p ".log" = true
        · simp [move_file, moveFileBody, h1, hf, hlog]
        · by_cases hexe : pathEndsWith p ".exe" = true
          · simp [move_file, moveFileBody, h1, hf, hlog, hexe]
          · cases hget : f.getmtimeErr with
            | some e =>
              refine ⟨by simp [move_file, moveFileBody, h1, hf, hlog, hexe, hget], ?_⟩
              intro a b
              simpa [move_file, moveFileBody, h1, hf, hlog, hexe, hget] using
                errOutcome_ne_moved e a b
            | none =>
              cases hlk : lookupP s.files p with
              | none =>
                refine ⟨by simp [move_file, moveFileBody, h1, hf, hlog, hexe, hget, hlk],
                  ?_⟩
                intro a b
                simpa [move_file, moveFileBody, h1, hf, hlog, hexe, hget, hlk] using
                  errOutcome_ne_moved (PyErr.osError 2 "No such file or directory") a b
              | some m =>
                by_cases hmv : should_move_file m inp.now = false
                · simp [move_file, moveFileBody, h1, hf, hlog, hexe, hget, hlk, hmv]
                · simp [move_file, moveFileBody, h1, hf, hlog, hexe, hget, hlk, hmv, h2]

/-- Witness for C3 at concrete inputs: flag set at entry, and flag
set at the re-check only. -/
theorem cancellation_blocks_new_moves_witness :
    move_file (MoveInput.mk true false false 0) noFaults (FSState.mk [] []) [] =
      (FSState.mk [] [], Outcome.cancelledEntry) ∧
    ((move_file (MoveInput.mk false true false 7776001) noFaults
        (FSState.mk [(["a"], 0)] []) ["a"]).1 = FSState.mk [(["a"], 0)] [] ∧
     ∀ a b, (move_file (MoveInput.mk false true false 7776001) noFaults
        (FSState.mk [(["a"], 0)] []) ["a"]).2 ≠ Outcome.moved a b) :=
  ⟨(cancellation_blocks_new_moves (MoveInput.mk true false false 0) noFaults
      (FSState.mk [] []) []).1 rfl,
   (cancellation_blocks_new_moves (MoveInput.mk false true false 7776001) noFaults
      (FSState.mk [(["a"], 0)] []) ["a"]).2 (Or.inr rfl)⟩

/-- Claim C6: a file whose name ends in the log extension or the
executable extension is never relocated, whatever its age: the
special-file checks short-circuit — for any injected fault on the
modification-time read and any stored timestamp, the state is
unchanged and the outcome is one of the pre-classification returns. -/
theorem special_files_short_circuit :
    ∀ inp f s p,
      (pathEndsWith p ".log" = true ∨ pathEndsWith p ".exe" = true) →
      (move_file inp f s p).1 = s ∧
      ((move_file inp f s p).2 = Outcome.cancelledEntry ∨
       (move_file inp f s p).2 = Outcome.notAFile ∨
       (move_file inp f s p).2 = Outcome.skippedLogFile ∨
       (move_file inp f s p).2 = Outcome.skippedExeFile) := by
  intro inp f s p h
  by_cases h1 : inp.sd1 = true
  · simp [move_file, h1]
  · by_cases hf : s.isfile p = false
    · simp [move_file, moveFileBody, h1, hf]
    · by_cases hlog : pathEndsWith p ".log" = true
      · simp [move_file, moveFileBody, h1, hf, hlog]
      · have hexe : pathEndsWith p ".exe" = true := h.resolve_left hlog
        simp [move_file, moveFileBody, h1, hf, hlog, hexe]

/-- Witness for C6: an old `.log` file with a poisoned
modification-time read is still skipped with the state unchanged. -/
theorem special_files_short_circuit_witness :
    (move_file (goodInp 7776001) (Faults.mk (some (PyErr.exc "ignored")) none none none)
        (FSState.mk [(["file_sorter.log"], 0)] []) ["file_sorter.log"]).1 =
      FSState.mk [(["file_sorter.log"], 0)] [] ∧
    ((move_file (goodInp 7776001) (Faults.mk (some (PyErr.exc "ignored")) none none none)
        (FSState.mk [(["file_sorter.log"], 0)] []) ["file_sorter.log"]).2 =
        Outcome.cancelledEntry ∨
     (move_file (goodInp 7776001) (Faults.mk (some (PyErr.exc "ignored")) none none none)
        (FSState.mk [(["file_sorter.log"], 0)] []) ["file_sorter.log"]).2 =
        Outcome.notAFile ∨
     (move_file (goodInp 7776001) (Faults.mk (some (PyErr.exc "ignored")) none none none)
        (FSState.mk [(["file_sorter.log"], 0)] []) ["file_sorter.log"]).2 =
        Outcome.skippedLogFile ∨
     (move_file (goodInp 7776001) (Faults.mk (some (PyErr.exc "ignored")) none none none)
        (FSState.mk [(["file_sorter.log"], 0)] []) ["file_sorter.log"]).2 =
        Outcome.skippedExeFile) :=
  special_files_short_circuit (goodInp 7776001)
    (Faults.mk (some (PyErr.exc "ignored")) none none none)
    (FSState.mk [(["file_sorter.log"], 0)] []) ["file_sorter.log"]
    (Or.inl (by decide))

/-- Claim C2: if the destination path (quarter directory plus the
source's base filename) already exists when checked, the Mover records
the destination-exists skip and leaves the file table unchanged; and
whenever a move does happen, the destination did not previously exist
and every other file's entry is preserved — no existing file is ever
overwritten. -/
theorem never_overwrite :
    (∀ inp f s p m,
       inp.sd1 = false → inp.sd2 = false →
       pathEndsWith p ".log" = false → pathEndsWith p ".exe" = false →
       f.getmtimeErr = none → lookupP s.files p = some m →
       should_move_file m inp.now = true → f.makedirsErr = none →
       os_path_exists s (destOf p m) = true →
       (move_file inp f s p).2 = Outcome.skippedDestinationExists (destOf p m) ∧
       (move_file inp f s p).1.files = s.files) ∧
    (∀ inp f s p a b,
       (move_file inp f s p).2 = Outcome.moved a b →
       a = p ∧ os_path_exists s b = false ∧
       (∀ x mx, x ≠ p → lookupP s.files x = some mx →
          lookupP (move_file inp f s p).1.files x = some mx)) := by
  constructor
  · intro inp f s p m h1 h2 hlog hexe hget hlk hmv hmk hdest
    have hf : s.isfile p = true := by simp [FSState.isfile, hlk]
    by_cases hqp : os_path_exists s (pathJoin (dirname p) (quarterDirOf m)) = false
    · have hdest1 :
          os_path_exists (addDir s (pathJoin (dirname p) (quarterDirOf m)))
            (pathJoin (pathJoin (dirname p) (quarterDirOf m)) (basename p)) = true := by
        apply os_path_exists_addDir_mono
        simpa [destOf] using hdest
      constructor
      · simp [move_file, moveFileBody, h1, h2, hf, hlog, hexe, hget, hlk, hmv,
          hmk, mkStep_not_exists_none, hqp, hdest1, destOf]
      · simp [move_file, moveFileBody, h1, h2, hf, hlog, hexe, hget, hlk, hmv,
          hmk, mkStep_not_exists_none, hqp, hdest1, files_addDir]
    · have hqp' : os_path_exists s (pathJoin (dirname p) (quarterDirOf m)) = true := by
        simpa using hqp
      have hdest0 :
          os_path_exists s
            (pathJoin (pathJoin (dirname p) (quarterDirOf m)) (basename p)) = true := by
        simpa [destOf] using hdest
      constructor
      · simp [move_file, moveFileBody, h1, h2, hf, hlog, hexe, hget, hlk, hmv,
          mkStep_exists, hqp', hdest0, destOf]
      · simp [move_file, moveFileBody, h1, h2, hf, hlog, hexe, hget, hlk, hmv,
          mkStep_exists, hqp', hdest0]
  · intro inp f s p a b h
    obtain ⟨hpa, m, s1, hlk, hmv, hlog, hexe, hb, hfiles, hmono, hdest, heq⟩ :=
      move_file_moved_inv inp f s p a b h
    refine ⟨hpa, ?_, ?_⟩
    · rw [hb]
      have hne : os_path_exists s (destOf p m) ≠ true := by
        intro hc
        rw [hmono _ hc] at hdest
        exact absurd hdest (by simp)
      exact Bool.eq_false_iff.mpr hne
    · intro x mx hx hlx
      rw [heq, files_rename]
      have hxd : destOf p m ≠ x := by
        intro hc
        have hex : os_path_exists s x = true := by
          simp [os_path_exists, FSState.isfile, hlx]
        rw [← hc] at hex
        rw [hmono _ hex] at hdest
        exact absurd hdest (by simp)
      simp only [lookupP, hxd, if_false]
      rw [lookupP_removeKey_ne _ _ _ hx, hfiles]
      exact hlx

/-- Witness for C2, part one at a concrete destination collision,
part two at a concrete successful move. -/
theorem never_overwrite_witness :
    ((move_file (goodInp (tsOfCivil 2024 9 1)) noFaults
        (FSState.mk [(["t", "a.txt"], tsOfCivil 2024 5 10),
                     (["t", "Q2-2024", "a.txt"], 0)] [["t"]])
        ["t", "a.txt"]).2 =
      Outcome.skippedDestinationExists (destOf ["t", "a.txt"] (tsOfCivil 2024 5 10)) ∧
     (move_file (goodInp (tsOfCivil 2024 9 1)) noFaults
        (FSState.mk [(["t", "a.txt"], tsOfCivil 2024 5 10),
                     (["t", "Q2-2024", "a.txt"], 0)] [["t"]])
        ["t", "a.txt"]).1.files =
      [(["t", "a.txt"], tsOfCivil 2024 5 10), (["t", "Q2-2024", "a.txt"], 0)]) ∧
    ((["t", "b.txt"] : FPath) = ["t", "b.txt"] ∧
     os_path_exists (FSState.mk [(["t", "b.txt"], tsOfCivil 2024 5 10)] [["t"]])
       ["t", "Q2-2024", "b.txt"] = false ∧
     (∀ x mx, x ≠ (["t", "b.txt"] : FPath) →
        lookupP [(["t", "b.txt"], tsOfCivil 2024 5 10)] x = some mx →
        lookupP (move_file (goodInp (tsOfCivil 2024 9 1)) noFaults
          (FSState.mk [(["t", "b.txt"], tsOfCivil 2024 5 10)] [["t"]])
          ["t", "b.txt"]).1.files x = some mx)) :=
  ⟨never_overwrite.1 (goodInp (tsOfCivil 2024 9 1)) noFaults
     (FSState.mk [(["t", "a.txt"], tsOfCivil 2024 5 10),
                  (["t", "Q2-2024", "a.txt"], 0)] [["t"]])
     ["t", "a.txt"] (tsOfCivil 2024 5 10)
     rfl rfl (by decide) (by decide) rfl (by decide) (by decide) rfl (by decide),
   never_overwrite.2 (goodInp (tsOfCivil 2024 9 1)) noFaults
     (FSState.mk [(["t", "b.txt"], tsOfCivil 2024 5 10)] [["t"]])
     ["t", "b.txt"] ["t", "b.txt"] ["t", "Q2-2024", "b.txt"] (by decide)⟩

/-- Claim C4: a per-file failure is isolated to that file: an errno-13
(permission denied / locked) rename error yields the locked skip, any
other `OSError` yields the failure record with its message preserved,
in both cases leaving the file table unchanged; and for any injected
faults at all, the dispatcher still completes with one outcome per
candidate file. -/
theorem per_file_failures_isolated :
    (∀ inp f s p m errno msg,
       inp.sd1 = false → inp.sd2 = false →
       pathEndsWith p ".log" = false → pathEndsWith p ".exe" = false →
       f.getmtimeErr = none → lookupP s.files p = some m →
       should_move_file m inp.now = true → f.makedirsErr = none →
       os_path_exists s (destOf p m) = false →
       f.renameErr = some (PyErr.osError errno msg) →
       (move_file inp f s p).2 =
         (if errno = 13 then Outcome.skippedLocked else Outcome.failed msg) ∧
       (move_file inp f s p).1.files = s.files) ∧
    (∀ inp f s d, os_path_exists s d = true → f.listdirErr = none →
       sort_files inp f s d =
         ((processList inp f s (candidates s d)).1,
          RunResult.completed (processList inp f s (candidates s d)).2) ∧
       (processList inp f s (candidates s d)).2.length = (candidates s d).length) := by
  constructor
  · intro inp f s p m errno msg h1 h2 hlog hexe hget hlk hmv hmk hdest hren
    have hf : s.isfile p = true := by simp [FSState.isfile, hlk]
    by_cases hqp : os_path_exists s (pathJoin (dirname p) (quarterDirOf m)) = false
    · have hqd : pathJoin (dirname p) (quarterDirOf m) ≠
          pathJoin (pathJoin (dirname p) (quarterDirOf m)) (basename p) :=
        ne_pathJoin_self _ _
      have hdest1 :
          os_path_exists (addDir s (pathJoin (dirname p) (quarterDirOf m)))
            (pathJoin (pathJoin (dirname p) (quarterDirOf m)) (basename p)) = false := by
        rw [os_path_exists_addDir]
        simpa [hqd, destOf] using hdest
      constructor
      · simp [move_file, moveFileBody, h1, h2, hf, hlog, hexe, hget, hlk, hmv,
          hmk, mkStep_not_exists_none, hqp, hdest1, hren, errOutcome]
      · simp [move_file, moveFileBody, h1, h2, hf, hlog, hexe, hget, hlk, hmv,
          hmk, mkStep_not_exists_none, hqp, hdest1, hren, files_addDir]
    · have hqp' : os_path_exists s (pathJoin (dirname p) (quarterDirOf m)) = true := by
        simpa using hqp
      have hdest0 :
          os_path_exists s
            (pathJoin (pathJoin (dirname p) (quarterDirOf m)) (basename p)) = false := by
        simpa [destOf] using hdest
      constructor
      · simp [move_file, moveFileBody, h1, h2, hf, hlog, hexe, hget, hlk, hmv,
          mkStep_exists, hqp', hdest0, hren, errOutcome]
      · simp [move_file, moveFileBody, h1, h2, hf, hlog, hexe, hget, hlk, hmv,
          mkStep_exists, hqp', hdest0, hren]
  · intro inp f s d hd hl
    constructor
    · simp [sort_files, hd, hl]
    · exact processList_length inp f (candidates s d) s

/-- Witness for C4: a locked (errno 13) rename at a concrete input,
and a concrete dispatcher run with a rename fault still completing
with one outcome per candidate. -/
theorem per_file_failures_isolated_witness :
    ((move_file (goodInp (tsOfCivil 2024 9 1))
        (Faults.mk none none (some (PyErr.osError 13 "locked")) none)
        (FSState.mk [(["t", "a.txt"], tsOfCivil 2024 5 10)] [["t"]])
        ["t", "a.txt"]).2 =
      (if (13 : Int) = 13 then Outcome.skippedLocked else Outcome.failed "locked") ∧
     (move_file (goodInp (tsOfCivil 2024 9 1))
        (Faults.mk none none (some (PyErr.osError 13 "locked")) none)
        (FSState.mk [(["t", "a.txt"], tsOfCivil 2024 5 10)] [["t"]])
        ["t", "a.txt"]).1.files = [(["t", "a.txt"], tsOfCivil 2024 5 10)]) ∧
    (sort_files (goodInp (tsOfCivil 2024 9 1))
        (Faults.mk none none (some (PyErr.osError 5 "io")) none)
        (FSState.mk [(["t", "a.txt"], tsOfCivil 2024 5 10)] [["t"]]) ["t"] =
       ((processList (goodInp (tsOfCivil 2024 9 1))
           (Faults.mk none none (some (PyErr.osError 5 "io")) none)
           (FSState.mk [(["t", "a.txt"], tsOfCivil 2024 5 10)] [["t"]])
           (candidates (FSState.mk [(["t", "a.txt"], tsOfCivil 2024 5 10)] [["t"]])
             ["t"])).1,
        RunResult.completed
          (processList (goodInp (tsOfCivil 2024 9 1))
            (Faults.mk none none (some (PyErr.osError 5 "io")) none)
            (FSState.mk [(["t", "a.txt"], tsOfCivil 2024 5 10)] [["t"]])
            (candidates (FSState.mk [(["t", "a.txt"], tsOfCivil 2024 5 10)] [["t"]])
              ["t"])).2) ∧
     (processList (goodInp (tsOfCivil 2024 9 1))
        (Faults.mk none none (some (PyErr.osError 5 "io")) none)
        (FSState.mk [(["t", "a.txt"], tsOfCivil 2024 5 10)] [["t"]])
        (candidates (FSState.mk [(["t", "a.txt"], tsOfCivil 2024 5 10)] [["t"]])
          ["t"])).2.length =
       (candidates (FSState.mk [(["t", "a.txt"], tsOfCivil 2024 5 10)] [["t"]])
         ["t"]).length) :=
  ⟨per_file_failures_isolated.1 (goodInp (tsOfCivil 2024 9 1))
     (Faults.mk none none (some (PyErr.osError 13 "locked")) none)
     (FSState.mk [(["t", "a.txt"], tsOfCivil 2024 5 10)] [["t"]])
     ["t", "a.txt"] (tsOfCivil 2024 5 10) 13 "locked"
     rfl rfl (by decide) (by decide) rfl (by decide) (by decide) rfl (by decide) rfl,
   per_file_failures_isolated.2 (goodInp (tsOfCivil 2024 9 1))
     (Faults.mk none none (some (PyErr.osError 5 "io")) none)
     (FSState.mk [(["t", "a.txt"], tsOfCivil 2024 5 10)] [["t"]]) ["t"]
     (by decide) rfl⟩

/-- Claim C5: whenever the Mover relocates a file, the destination is
the sibling quarter directory computed as ((month − 1) div 3) + 1 and
labelled with the modification timestamp's year, joined with the
source's base filename. -/
theorem moved_destination_quarter :
    ∀ inp f s p a b, (move_file inp f s p).2 = Outcome.moved a b →
      a = p ∧ ∃ m, lookupP s.files p = some m ∧
        should_move_file m inp.now = true ∧
        b = pathJoin (pathJoin (dirname p)
              ("Q" ++ toString ((dtMonth m - 1) / 3 + 1) ++ "-" ++ toString (dtYear m)))
            (basename p) := by
  intro inp f s p a b h
  obtain ⟨hpa, m, s1, hlk, hmv, _, _, hb, _⟩ := move_file_moved_inv inp f s p a b h
  exact ⟨hpa, m, hlk, hmv, by simpa [destOf, quarterDirOf, quarterOf] using hb⟩

/-- Witness for C5: the spec's example — `report.txt` last modified
2024-05-10, evaluated at now = 2024-09-01, goes to Q2-2024. -/
theorem moved_destination_quarter_witness :
    (["test", "report.txt"] : FPath) = ["test", "report.txt"] ∧
    ∃ m, lookupP [(["test", "report.txt"], tsOfCivil 2024 5 10)]
        ["test", "report.txt"] = some m ∧
      should_move_file m (tsOfCivil 2024 9 1) = true ∧
      (["test", "Q2-2024", "report.txt"] : FPath) =
        pathJoin (pathJoin (dirname ["test", "report.txt"])
            ("Q" ++ toString ((dtMonth m - 1) / 3 + 1) ++ "-" ++ toString (dtYear m)))
          (basename ["test", "report.txt"]) :=
  moved_destination_quarter (goodInp (tsOfCivil 2024 9 1)) noFaults
    (FSState.mk [(["test", "report.txt"], tsOfCivil 2024 5 10)] [["test"]])
    ["test", "report.txt"] ["test", "report.txt"] ["test", "Q2-2024", "report.txt"]
    (by decide)

/-- Claim C7: the dispatcher is idempotent on quiet runs: whatever
the second of two successive runs over the same directory completes
with, it contains zero moved outcomes — every eligible file was moved
by the first run into a quarter subfolder, which is not rescanned —
and the candidate listing retains only regular files. -/
theorem dispatcher_idempotent :
    ∀ (now : Int) (s : FSState) (d : FPath) (outs : List Outcome),
      (sort_files (goodInp now) noFaults
          (sort_files (goodInp now) noFaults s d).1 d).2 = RunResult.completed outs →
      (∀ o ∈ outs, ∀ a b, o ≠ Outcome.moved a b) ∧
      (∀ p ∈ candidates s d, s.isfile p = true) := by
  intro now s d outs h2
  refine ⟨?_, fun p hp => ((mem_candidates_iff s d p).mp hp).1⟩
  by_cases hd : os_path_exists s d = true
  · have h1eq : sort_files (goodInp now) noFaults s d =
        ((processList (goodInp now) noFaults s (candidates s d)).1,
         RunResult.completed (processList (goodInp now) noFaults s (candidates s d)).2) := by
      simp [sort_files, hd, listdirErr_noFaults]
    rw [h1eq] at h2
    dsimp only at h2
    by_cases hd1 :
      os_path_exists (processList (goodInp now) noFaults s (candidates s d)).1 d = true
    · have h2eq : sort_files (goodInp now) noFaults
          (processList (goodInp now) noFaults s (candidates s d)).1 d =
          ((processList (goodInp now) noFaults
              (processList (goodInp now) noFaults s (candidates s d)).1
              (candidates (processList (goodInp now) noFaults s (candidates s d)).1 d)).1,
           RunResult.completed
             (processList (goodInp now) noFaults
               (processList (goodInp now) noFaults s (candidates s d)).1
               (candidates (processList (goodInp now) noFaults s (candidates s d)).1 d)).2) := by
        simp [sort_files, hd1, listdirErr_noFaults]
      rw [h2eq] at h2
      dsimp only at h2
      injection h2 with houts
      rw [← houts]
      apply processList_no_moved now d _ _ (fun q hq => candidates_dirname _ _ _ hq)
      intro p hp
      obtain ⟨hpf1, n, hpn⟩ :=
        (mem_candidates_iff (processList (goodInp now) noFaults s (candidates s d)).1
          d p).mp hp
      have hpd : dirname p = d := by
        rw [hpn]
        exact dirname_pathJoin d n
      have hpf0 : s.isfile p = true :=
        processList_isfile_origin now d (candidates s d) s p
          (fun q hq => candidates_dirname _ _ _ hq) hpd hpf1
      have hp0 : p ∈ candidates s d :=
        (mem_candidates_iff s d p).mpr ⟨hpf0, n, hpn⟩
      exact processList_establishes now d (candidates s d) s
        (fun q hq => candidates_dirname _ _ _ hq) p hp0
    · have hd10 :
          os_path_exists (processList (goodInp now) noFaults s (candidates s d)).1 d =
            false := by
        simpa using hd1
      have h2eq : sort_files (goodInp now) noFaults
          (processList (goodInp now) noFaults s (candidates s d)).1 d =
          ((processList (goodInp now) noFaults s (candidates s d)).1,
           RunResult.failedPrecondition) := by
        simp [sort_files, hd10]
      rw [h2eq] at h2
      dsimp only at h2
      cases h2
  · have hd0 : os_path_exists s d = false := by simpa using hd
    have h1eq : sort_files (goodInp now) noFaults s d = (s, RunResult.failedPrecondition) := by
      simp [sort_files, hd0]
    rw [h1eq] at h2
    dsimp only at h2
    rw [h1eq] at h2
    dsimp only at h2
    cases h2

/-- Witness for C7 on a concrete directory: after the first run moves
the one eligible file, the second run's outcome list is a single
retention skip, and it is not a move. -/
theorem dispatcher_idempotent_witness :
    Outcome.skippedNewer ≠ Outcome.moved [] [] ∧
    FSState.isfile
      (FSState.mk [(["t", "old.txt"], tsOfCivil 2024 5 10),
                   (["t", "new.txt"], tsOfCivil 2024 8 20)] [["t"]])
      ["t", "old.txt"] = true :=
  ⟨(dispatcher_idempotent (tsOfCivil 2024 9 1)
      (FSState.mk [(["t", "old.txt"], tsOfCivil 2024 5 10),
                   (["t", "new.txt"], tsOfCivil 2024 8 20)] [["t"]])
      ["t"] [Outcome.skippedNewer] (by decide)).1
      Outcome.skippedNewer (by decide) [] [],
   (dispatcher_idempotent (tsOfCivil 2024 9 1)
      (FSState.mk [(["t", "old.txt"], tsOfCivil 2024 5 10),
                   (["t", "new.txt"], tsOfCivil 2024 8 20)] [["t"]])
      ["t"] [Outcome.skippedNewer] (by decide)).2
      ["t", "old.txt"] (by decide)⟩

end FileSorter
